import Mathlib

/-!
Verification development for the fiber-dev async-resource-graph library.

The definitions below are a shallow embedding of `src/asyncResourceGraph.ts`
(provided as `src/unnamed/part_001`) and `src/utils.ts`.  Mutable JS objects
with cyclic references are represented by a store (`Graph`): a total function
from node ids to node records.  The store is keyed by `asyncId`, exactly as
the source keys its `Map<number, AsyncResourceNode>` edge maps and attaches
one shadow node per async resource; hence the `executionTargets` and
`triggerTargets` lists hold the target nodes' async ids, in Map insertion
order.  Bit flags are `Nat` values combined with `|||`/`&&&`, mirroring the
TypeScript `AsyncResourceFlags` enum.
-/

namespace FiberDev

/-- Flag `AsyncResourceFlags.PRE_EXECUTION = 1 << 0`. -/
def PRE_EXECUTION : Nat := 1

/-- Flag `AsyncResourceFlags.POST_EXECUTION = 1 << 1`. -/
def POST_EXECUTION : Nat := 2

/-- Flag `AsyncResourceFlags.RESOLVED = 1 << 2`. -/
def RESOLVED : Nat := 4

/-- Flag `AsyncResourceFlags.ABORTED = 1 << 3`. -/
def ABORTED : Nat := 8

/-- Flag set `AsyncResourceFlags.FINALIZED = POST_EXECUTION | RESOLVED`. -/
def FINALIZED : Nat := POST_EXECUTION ||| RESOLVED

/-- Shadow node for one async resource (`class AsyncResourceNode`).
`notifyObserver` holds the observing fiber's id when an observer is
attached (`AsyncResourceObserver.fiberId`), `none` for the JS `null`. -/
structure AsyncResourceNode where
  asyncId : Nat
  fiberId : Nat
  type : Option String
  active : Bool
  executionOrigin : Option Nat
  triggerOrigin : Option Nat
  executionTargets : List Nat
  triggerTargets : List Nat
  flags : Nat
  notifyObserver : Option Nat
deriving DecidableEq

/-- The node store: JS object identity is modelled by the async id key. -/
def Graph : Type := Nat → AsyncResourceNode

/-- Point update of the node store (mutation of one JS node object). -/
def updNode (g : Graph) (i : Nat) (n : AsyncResourceNode) : Graph :=
  fun j => if j = i then n else g j

/-- Operation `Map.set(k, v)` on a key list: keeps insertion order, appends new keys. -/
def mapSetKey (l : List Nat) (k : Nat) : List Nat :=
  if l.contains k then l else l ++ [k]

/-- Function `taintAsyncResourceGraph(node, mask, flags)`: worklist presentation of the
source's direct recursion.  The source visits a node, tests
`(node.flags & mask & flags) === 0`, and if the test passes ORs `flags` in and
recurses into `executionTargets` then `triggerTargets`.  Pushing the children
in front of the continuation worklist reproduces exactly that visit order and
the same sequence of guard evaluations, threading the store through.  `fuel`
bounds the number of worklist entries processed; the source recursion
terminates if and only if some fuel is sufficient (returns `some`). -/
def taintRun : Nat → Nat → Nat → Graph → List Nat → Option Graph
  | _, _, _, g, [] => some g
  | 0, _, _, _, _ :: _ => none
  | fuel + 1, mask, fl, g, nid :: rest =>
    let n := g nid
    if n.flags &&& mask &&& fl == 0 then
      taintRun fuel mask fl (updNode g nid { n with flags := n.flags ||| fl })
        ((n.executionTargets ++ n.triggerTargets) ++ rest)
    else
      taintRun fuel mask fl g rest

/-- A default (irrelevant) node used to pad concrete example stores. -/
def blankNode : AsyncResourceNode :=
  { asyncId := 0, fiberId := 0, type := none, active := true,
    executionOrigin := none, triggerOrigin := none,
    executionTargets := [], triggerTargets := [],
    flags := 0, notifyObserver := none }

/-- Concrete store: root node 0 with one execution target, node 1, whose
flags are `RESOLVED` (finalized).  Used against the abort-taint policy. -/
def gFin : Graph := fun nid =>
  if nid = 0 then
    { blankNode with asyncId := 0, fiberId := 1, executionTargets := [1] }
  else if nid = 1 then
    { blankNode with asyncId := 1, fiberId := 1, flags := RESOLVED }
  else blankNode

/-- Concrete store with a trigger cycle: node 0's execution target is node 1,
and node 1's trigger target is node 0 (mutually dependent promises). -/
def gCyc : Graph := fun nid =>
  if nid = 0 then
    { blankNode with asyncId := 0, fiberId := 1, executionTargets := [1] }
  else if nid = 1 then
    { blankNode with asyncId := 1, fiberId := 1, triggerTargets := [0] }
  else blankNode

/-- Result of the watchdog's `assertFiberOwnership` classification: either the
node is accepted, or a `FiberError` with one of the two trigger codes is
raised via `assertFiberError`. -/
inductive OwnershipResult where
  | accept
  | parentAsyncTrigger
  | foreignAsyncTrigger
deriving DecidableEq

/-- The data of a `triggerOrigin` node that `assertFiberOwnership` inspects:
its identity (`nodeId`, standing for JS reference equality with `fiber.root`)
and its `fiberId`. -/
structure TriggerInfo where
  nodeId : Nat
  fiberId : Nat
deriving DecidableEq

/-- Function `assertFiberOwnership(node)` from `fiberWatchdog`, with the watchdog's
captured state (`fiber.fiberId`, `fiber.root`, `parentFiberIds`) passed
explicitly.  The source tests, in order:
`node.fiberId !== fiber.fiberId || !triggerOrigin` (accept),
`triggerOrigin === fiber.root` (accept),
`triggerOrigin.fiberId === node.fiberId` (accept), then raises
`FOREIGN_ASYNC_TRIGGER` unless `parentFiberIds.includes(triggerOrigin.fiberId)`
in which case it raises `PARENT_ASYNC_TRIGGER`. -/
def assertFiberOwnership (fiberId rootId : Nat) (parentFiberIds : List Nat)
    (nodeFiberId : Nat) (triggerOrigin : Option TriggerInfo) : OwnershipResult :=
  match triggerOrigin with
  | none => .accept
  | some t =>
    if nodeFiberId != fiberId then .accept
    else if t.nodeId == rootId then .accept
    else if t.fiberId == nodeFiberId then .accept
    else
      let isParentFiberTrigger := parentFiberIds.contains t.fiberId
      if !isParentFiberTrigger then .foreignAsyncTrigger
      else .parentAsyncTrigger

/-- The ownership table exactly as the specification states it, row by row:
accept when the node belongs to another fiber or has no trigger edge; accept
when the trigger is the fiber's root; accept when the trigger belongs to the
node's own fiber; reject `PARENT_ASYNC_TRIGGER` when the trigger's fiber id is
in the parent-fiber id chain; reject `FOREIGN_ASYNC_TRIGGER` otherwise. -/
def ownershipSpecTable (fiberId rootId : Nat) (parentFiberIds : List Nat)
    (nodeFiberId : Nat) (triggerOrigin : Option TriggerInfo) : OwnershipResult :=
  match triggerOrigin with
  | none => .accept
  | some t =>
    if nodeFiberId ≠ fiberId then .accept
    else if t.nodeId = rootId then .accept
    else if t.fiberId = nodeFiberId then .accept
    else if t.fiberId ∈ parentFiberIds then .parentAsyncTrigger
    else .foreignAsyncTrigger

/-- The view of a node that `stallWatchdog` and `lastExecutionTarget` read:
identity, owner, flags, and `type`. -/
structure SNode where
  id : Nat
  fiberId : Nat
  flags : Nat
  type : Option String
deriving DecidableEq

/-- The `fiber.executionTargets` getter: the direct execution targets of the
fiber's root restricted to nodes owned by the fiber. -/
def fiberExecutionTargets (rootTargets : List SNode) (fiberId : Nat) : List SNode :=
  rootTargets.filter (fun n => n.fiberId == fiberId)

/-- Function `lastExecutionTarget()` from `fiberWatchdog`: the last node of the pending
set in insertion order when that set is non-empty; otherwise the last of the
fiber-owned execution targets of root (`targets[targets.length - 1]`), falling
back to the root itself (`|| fiber.root`) when that list is empty. -/
def lastExecutionTarget (pending rootTargets : List SNode)
    (fiberId rootId : Nat) : Nat :=
  if pending.length ≠ 0 then
    (pending.getLast?.map SNode.id).getD rootId
  else
    ((fiberExecutionTargets rootTargets fiberId).getLast?.map SNode.id).getD rootId

/-- Function `stallWatchdog()` from `fiberWatchdog`.  Returns `none` when the check
returns without rejecting, and `some nodeId` when it rejects the wrapped
result with `FIBER_STALL` pointing at that node.  The source first returns if
`abort?.aborted`; then scans the pending set for a node with no `FINALIZED`
bit whose type is not `'PROMISE'` (`hasAsyncIO`); if none is found it rejects
with `lastExecutionTarget()`. -/
def stallWatchdog (aborted : Bool) (pending rootTargets : List SNode)
    (fiberId rootId : Nat) : Option Nat :=
  if aborted then none
  else if pending.any (fun n => n.flags &&& FINALIZED == 0
      && n.type != some "PROMISE") then none
  else some (lastExecutionTarget pending rootTargets fiberId rootId)

/-- Function `getAsyncResourceNode(asyncId)`: starting from the current
execution-context's shadow node (`start`, `none` when the execution resource
carries no sentinel), check the node's own `asyncId`, then its
`executionTargets` map (`executionTargets.get(asyncId)`, which under the
asyncId-keyed store is a key-list membership test), then walk up
`executionOrigin`.  `fuel` bounds the length of the origin chain walked. -/
def getAsyncResourceNode (g : Graph) : Nat → Option Nat → Nat → Option Nat
  | _, none, _ => none
  | 0, some _, _ => none
  | fuel + 1, some nid, asyncId =>
    if (g nid).asyncId == asyncId then some nid
    else if (g nid).executionTargets.contains asyncId then some asyncId
    else getAsyncResourceNode g fuel (g nid).executionOrigin asyncId

/-- Handler `AsyncResourceNode._onBefore()`: ORs `PRE_EXECUTION` into the flags
unconditionally, then notifies the attached observer only when
`this.active && this.notifyObserver`.  The returned Bool records whether the
observer callback fired. -/
def nodeOnBefore (g : Graph) (nid : Nat) : Graph × Bool :=
  let n := g nid
  let n1 := { n with flags := n.flags ||| PRE_EXECUTION }
  (updNode g nid n1, n1.active && n1.notifyObserver.isSome)

/-- Handler `AsyncResourceNode._onAfter()`: ORs `POST_EXECUTION` into the flags
unconditionally; when `this.active && this.notifyObserver` the observer's
`_onAfter` fires and clears `node.notifyObserver`. -/
def nodeOnAfter (g : Graph) (nid : Nat) : Graph × Bool :=
  let n := g nid
  let notified := n.active && n.notifyObserver.isSome
  let n1 := { n with flags := n.flags ||| POST_EXECUTION,
                     notifyObserver := if notified then none else n.notifyObserver }
  (updNode g nid n1, notified)

/-- Handler `AsyncResourceNode._onPromiseResolve()`: ORs `RESOLVED` into the flags
unconditionally; when `this.active && this.notifyObserver` the observer's
`_onPromiseResolve` fires and clears `node.notifyObserver`. -/
def nodeOnPromiseResolve (g : Graph) (nid : Nat) : Graph × Bool :=
  let n := g nid
  let notified := n.active && n.notifyObserver.isSome
  let n1 := { n with flags := n.flags ||| RESOLVED,
                     notifyObserver := if notified then none else n.notifyObserver }
  (updNode g nid n1, notified)

/-- The hook's `before(asyncId)` callback body:
`getAsyncResourceNode(asyncId)?._onBefore()`. -/
def hookBefore (g : Graph) (execCtx : Option Nat) (asyncId fuel : Nat) :
    Graph × Bool :=
  match getAsyncResourceNode g fuel execCtx asyncId with
  | none => (g, false)
  | some nid => nodeOnBefore g nid

/-- The hook's `after(asyncId)` callback body:
`getAsyncResourceNode(asyncId)?._onAfter()`. -/
def hookAfter (g : Graph) (execCtx : Option Nat) (asyncId fuel : Nat) :
    Graph × Bool :=
  match getAsyncResourceNode g fuel execCtx asyncId with
  | none => (g, false)
  | some nid => nodeOnAfter g nid

/-- The hook's `promiseResolve(asyncId)` callback body:
`getAsyncResourceNode(asyncId)?._onPromiseResolve()`. -/
def hookPromiseResolve (g : Graph) (execCtx : Option Nat) (asyncId fuel : Nat) :
    Graph × Bool :=
  match getAsyncResourceNode g fuel execCtx asyncId with
  | none => (g, false)
  | some nid => nodeOnPromiseResolve g nid

/-- Concrete store for the hook claims: node 0 is an inactive node with an
attached observer and empty flags. -/
def gInactive : Graph := fun nid =>
  if nid = 0 then
    { blankNode with asyncId := 0, fiberId := 1, active := false,
                     notifyObserver := some 1 }
  else blankNode

/-- First stage of `_onExecute`: construct the child node (inheriting
`this.fiberId`), publish it in the store under `asyncId`, and record it in
the creator's `executionTargets`. -/
def onExecuteInsert (g : Graph) (selfId asyncId : Nat) (type : Option String) :
    Graph :=
  let node : AsyncResourceNode :=
    { asyncId := asyncId, fiberId := (g selfId).fiberId, type := type,
      active := true, executionOrigin := some selfId, triggerOrigin := none,
      executionTargets := [], triggerTargets := [],
      flags := 0, notifyObserver := none }
  let g1 := updNode g asyncId node
  updNode g1 selfId
    { g1 selfId with
      executionTargets := mapSetKey (g1 selfId).executionTargets asyncId }

/-- Second stage of `_onExecute`: when a trigger node was found, wire the
child's `triggerOrigin` and the trigger's `triggerTargets`. -/
def onExecuteWireTrigger (g : Graph) (asyncId : Nat) (trigger : Option Nat) :
    Graph :=
  match trigger with
  | some tid =>
    let g3 := updNode g asyncId { g asyncId with triggerOrigin := some tid }
    updNode g3 tid
      { g3 tid with triggerTargets := mapSetKey (g3 tid).triggerTargets asyncId }
  | none => g

/-- Third stage of `_onExecute`: when the creator carries an observer, the
observer's `_onInit` runs and attaches itself to the child node if the child
belongs to the observer's fiber. -/
def onExecuteNotify (g : Graph) (selfId asyncId : Nat) : Graph :=
  match (g selfId).notifyObserver with
  | some obs =>
    if (g asyncId).fiberId == obs then
      updNode g asyncId { g asyncId with notifyObserver := some obs }
    else g
  | none => g

/-- Handler `AsyncResourceNode._onExecute(asyncId, type, triggerAsyncId, resource)`,
invoked on the current execution context's node `selfId` by the hook's `init`
callback.  When the node is inactive the event is dropped; otherwise the
three stages above run in source order, with the trigger node looked up via
`getAsyncResourceNode` only when `asyncId ≠ triggerAsyncId`. -/
def nodeOnExecute (g : Graph) (fuel selfId asyncId : Nat) (type : Option String)
    (triggerAsyncId : Nat) : Graph :=
  if !(g selfId).active then g
  else
    let g2 := onExecuteInsert g selfId asyncId type
    let trigger := if asyncId != triggerAsyncId then
        getAsyncResourceNode g2 fuel (some selfId) triggerAsyncId
      else none
    onExecuteNotify (onExecuteWireTrigger g2 asyncId trigger) selfId asyncId

/-- Settlement attempts that reach the single promise constructed in
`promiseWithReject`: an explicit `watchdogResult.reject(reason)` call, or the
wrapped user promise settling and forwarding through `resolve`/`_reject`. -/
inductive SettleEvent (ε α : Type) where
  | rejectCall (e : ε)
  | sourceResolved (a : α)
  | sourceRejected (e : ε)

/-- A settled promise state: fulfilled with a value or rejected with a
reason. -/
inductive Settled (ε α : Type) where
  | fulfilled (a : α)
  | rejected (e : ε)
deriving DecidableEq

/-- Single-settlement semantics of the ECMAScript promise built by
`promiseWithReject`: the promise's `resolve`/`reject` functions are no-ops
once the promise is settled, so the first settlement attempt wins and every
later attempt is silently swallowed. -/
def settleOnce {ε α : Type} (st : Option (Settled ε α)) (ev : SettleEvent ε α) :
    Option (Settled ε α) :=
  match st with
  | some s => some s
  | none =>
    some (match ev with
      | .rejectCall e => .rejected e
      | .sourceResolved a => .fulfilled a
      | .sourceRejected e => .rejected e)

/-- The observable outcome of the watchdog-wrapped result promise after a
sequence of settlement attempts, starting unsettled. -/
def runSettle {ε α : Type} (evs : List (SettleEvent ε α)) :
    Option (Settled ε α) :=
  evs.foldl settleOnce none

/-- One `AsyncResourceFiber` record, keyed by its (process-unique)
`fiberId`: the root node's store key, the activation flag, and the parent
fiber captured at construction. -/
structure FiberRec where
  rootId : Nat
  active : Bool
  parent : Option Nat
deriving DecidableEq

/-- The module-level mutable state of `asyncResourceGraph.ts`: the node
store, the fiber records (total over fiber ids), the process-wide
`fiberStack` (bottom first; `push` appends), the hook's armed state, the
`_fiberIdx` counter, and the current execution resource's sentinel node, if
one is attached. -/
structure SysState where
  nodes : Graph
  fibers : Nat → FiberRec
  stack : List Nat
  hookArmed : Bool
  nextFiberId : Nat
  currentExec : Option Nat

/-- Point update of the fiber record store. -/
def updFiber (f : Nat → FiberRec) (i : Nat) (r : FiberRec) : Nat → FiberRec :=
  fun j => if j = i then r else f j

/-- Function `getFiber()`: scan the fiber stack from the top down for the first fiber
whose `active` flag is set; `none` when there is no such fiber. -/
def getFiberTop (s : SysState) : Option Nat :=
  s.stack.reverse.find? (fun fid => (s.fibers fid).active)

/-- Index of the first occurrence of `x`, `none` if absent. -/
def jsIndexOfAux (x : Nat) : List Nat → Option Nat
  | [] => none
  | y :: t => if y == x then some 0 else (jsIndexOfAux x t).map (· + 1)

/-- Semantics of `Array.prototype.indexOf`: index of the first occurrence, `-1` if
absent. -/
def jsIndexOf (l : List Nat) (x : Nat) : Int :=
  match jsIndexOfAux x l with
  | some i => (i : Int)
  | none => -1

/-- Semantics of `Array.prototype.splice(start, 1)`: a negative `start` counts from the
end and clamps at 0; an out-of-range index removes nothing. -/
def jsSpliceRemoveOne {α : Type} (l : List α) (start : Int) : List α :=
  l.eraseIdx (if start < 0 then ((l.length : Int) + start).toNat else start.toNat)

/-- Method `AsyncResourceFiber.enable()`: when not yet active, stamp the fiber's id
on its root node, set `active`, push onto the fiber stack, and arm the
process-wide hook. -/
def enable (s : SysState) (fid : Nat) : SysState :=
  if (s.fibers fid).active then s
  else
    { s with
      nodes := updNode s.nodes (s.fibers fid).rootId
        { s.nodes ((s.fibers fid).rootId) with fiberId := fid },
      fibers := updFiber s.fibers fid { s.fibers fid with active := true },
      stack := s.stack ++ [fid],
      hookArmed := true }

/-- Method `AsyncResourceFiber.disable()`: splice the fiber out of the stack at
`indexOf(this)`, disarm the hook if the stack is empty, reset the root node's
`fiberId` to `getFiber()?.fiberId || 0` (read from the already-spliced
stack), and clear `active`. -/
def disable (s : SysState) (fid : Nat) : SysState :=
  let stack1 := jsSpliceRemoveOne s.stack (jsIndexOf s.stack fid)
  let hook1 := if stack1.isEmpty then false else s.hookArmed
  let s1 : SysState := { s with stack := stack1, hookArmed := hook1 }
  let newFid := (getFiberTop s1).getD 0
  { s1 with
    nodes := updNode s1.nodes (s.fibers fid).rootId
      { s1.nodes ((s.fibers fid).rootId) with fiberId := newFid },
    fibers := updFiber s1.fibers fid { s.fibers fid with active := false } }

/-- Constructor `new AsyncResourceFiber(frame)`: take the next `_fiberIdx`; adopt the
current execution resource's sentinel node as root when present, otherwise
create a fresh root node at the current execution async id (owned by the new
fiber) and attach the sentinel; record `getFiber()` as parent; the new fiber
starts inactive.  Returns the new state and the new fiber's id. -/
def newFiber (s : SysState) (execAsyncId : Nat) : SysState × Nat :=
  let fid := s.nextFiberId
  match s.currentExec with
  | some nid =>
    ({ s with nextFiberId := fid + 1,
              fibers := updFiber s.fibers fid ⟨nid, false, getFiberTop s⟩ }, fid)
  | none =>
    let node : AsyncResourceNode :=
      { asyncId := execAsyncId, fiberId := fid, type := none, active := true,
        executionOrigin := none, triggerOrigin := none,
        executionTargets := [], triggerTargets := [],
        flags := 0, notifyObserver := none }
    ({ s with nextFiberId := fid + 1,
              nodes := updNode s.nodes execAsyncId node,
              currentExec := some execAsyncId,
              fibers := updFiber s.fibers fid ⟨execAsyncId, false, getFiberTop s⟩ },
      fid)

/-- The state path taken by `fiber(fn, params)` when `fn` throws
synchronously: the fiber is constructed and enabled, `fn()` raises before
producing a promise (touching none of the fiber machinery), and the `finally`
block disables the fiber as the exception propagates to the caller. -/
def fiberCallThrow (s : SysState) (execAsyncId : Nat) : SysState :=
  let p := newFiber s execAsyncId
  disable (enable p.1 p.2) p.2

/-- A concrete system state with three stacked active fibers 1, 2, 3 whose
root nodes are 10, 20, 30. -/
def sysEx : SysState :=
  { nodes := fun nid =>
      if nid = 10 then { blankNode with asyncId := 10, fiberId := 1 }
      else if nid = 20 then { blankNode with asyncId := 20, fiberId := 2 }
      else if nid = 30 then { blankNode with asyncId := 30, fiberId := 3 }
      else blankNode,
    fibers := fun fid =>
      if fid = 1 then ⟨10, true, none⟩
      else if fid = 2 then ⟨20, true, some 1⟩
      else if fid = 3 then ⟨30, true, some 2⟩
      else ⟨0, false, none⟩,
    stack := [1, 2, 3],
    hookArmed := true,
    nextFiberId := 4,
    currentExec := some 30 }

/-- A concrete state whose current execution node 0 carries `fiberId = 1`
while the inactive fiber 2 also has node 0 as its root: enabling fiber 2
re-stamps the node. -/
def sysRoot : SysState :=
  { nodes := fun nid =>
      if nid = 0 then { blankNode with asyncId := 0, fiberId := 1 }
      else blankNode,
    fibers := fun fid =>
      if fid = 1 then ⟨0, true, none⟩
      else if fid = 2 then ⟨0, false, some 1⟩
      else ⟨0, false, none⟩,
    stack := [1],
    hookArmed := true,
    nextFiberId := 3,
    currentExec := some 0 }

/-- Shape of `gCyc` kept invariant by taint: the edge lists of nodes 0, 1. -/
def CycShape (g : Graph) : Prop :=
  (g 0).executionTargets = [1] ∧ (g 0).triggerTargets = [] ∧
  (g 1).executionTargets = [] ∧ (g 1).triggerTargets = [0]

/- ------------------------------------------------------------------ -/
/- Theorems                                                            -/
/- ------------------------------------------------------------------ -/

/-- The taint guard `(x & FINALIZED & ABORTED) === 0` is true for every flag
value: `FINALIZED` and `ABORTED` are disjoint bit sets, so the conjunction of
the three masks is always zero. -/
theorem flags_and_finalized_and_aborted (x : Nat) :
    x &&& FINALIZED &&& ABORTED = 0 := by
  rw [Nat.land_assoc]
  show x &&& 0 = 0
  simp [Nat.land_assoc]

theorem updNode_preserves_cycShape (g : Graph) (nid : Nat) (n : AsyncResourceNode)
    (hg : CycShape g)
    (he : n.executionTargets = (g nid).executionTargets)
    (ht : n.triggerTargets = (g nid).triggerTargets) :
    CycShape (updNode g nid n) := by
  obtain ⟨h0, h1, h2, h3⟩ := hg
  refine ⟨?_, ?_, ?_, ?_⟩ <;>
    · simp only [updNode]
      split <;> simp_all

/-- Cyclic taint never terminates: with mask `FINALIZED` and flag `ABORTED`
the guard is vacuous, so the recursion alternates between nodes 0 and 1 of
the cycle forever, for any shape-preserving flag state. -/
theorem taintRun_cyc_aux (fuel : Nat) :
    ∀ g : Graph, CycShape g →
      taintRun fuel FINALIZED ABORTED g [0] = none ∧
      taintRun fuel FINALIZED ABORTED g [1] = none := by
  induction fuel with
  | zero => intro g _; exact ⟨rfl, rfl⟩
  | succ fuel ih =>
    intro g hg
    obtain ⟨h0, h1, h2, h3⟩ := hg
    constructor
    · have hguard : ((g 0).flags &&& FINALIZED &&& ABORTED == 0) = true := by
        simp [flags_and_finalized_and_aborted]
      simp only [taintRun, hguard, if_true, h0, h1, List.append_nil, List.nil_append]
      exact (ih _ (updNode_preserves_cycShape g 0 _ ⟨h0, h1, h2, h3⟩ h0.symm h1.symm)).2
    · have hguard : ((g 1).flags &&& FINALIZED &&& ABORTED == 0) = true := by
        simp [flags_and_finalized_and_aborted]
      simp only [taintRun, hguard, if_true, h2, h3, List.append_nil, List.nil_append]
      exact (ih _ (updNode_preserves_cycShape g 1 _ ⟨h0, h1, h2, h3⟩ h2.symm h3.symm)).1

/-- Claim C2 (code_bug evidence): taint propagation does not terminate on the
concrete two-node trigger cycle `gCyc`, no matter how much recursion depth
(fuel) is allowed, because the re-entry guard `(flags & FINALIZED & ABORTED)`
is zero even for a node already carrying `ABORTED` — the code recurses into an
already-marked node's targets, contradicting the claimed re-entry protection. -/
theorem C2_taint_diverges_on_cycle :
    (∀ fuel, taintRun fuel FINALIZED ABORTED gCyc [0] = none) ∧
      ABORTED &&& FINALIZED &&& ABORTED = 0 := by
  constructor
  · intro fuel
    exact (taintRun_cyc_aux fuel gCyc (by constructor <;> simp [gCyc, blankNode])).1
  · decide

/-- Claim C1 (code_bug evidence): running the abort taint
(`mask = FINALIZED`, `flag = ABORTED`) over `gFin`, whose node 1 is already
finalized (`RESOLVED`), still marks node 1 `ABORTED`
(flags become `RESOLVED ||| ABORTED = 12`): finalized nodes are not skipped. -/
theorem C1_taint_marks_finalized_node :
    (gFin 1).flags &&& FINALIZED ≠ 0 ∧
      (taintRun 5 FINALIZED ABORTED gFin [0]).map (fun g => (g 1).flags) =
        some (RESOLVED ||| ABORTED) := by
  constructor
  · decide
  · decide

/-- Claim C4: the watchdog's ownership validation classifies every node
exactly as the specification's table — accept for foreign-owned or
trigger-less nodes, for triggers that are the fiber's root, and for
same-fiber triggers; `PARENT_ASYNC_TRIGGER` when the trigger's fiber id lies
in the parent-fiber chain; `FOREIGN_ASYNC_TRIGGER` otherwise. -/
theorem C4_ownership_matches_spec_table (fiberId rootId : Nat)
    (parentFiberIds : List Nat) (nodeFiberId : Nat)
    (triggerOrigin : Option TriggerInfo) :
    assertFiberOwnership fiberId rootId parentFiberIds nodeFiberId triggerOrigin =
      ownershipSpecTable fiberId rootId parentFiberIds nodeFiberId triggerOrigin := by
  cases triggerOrigin with
  | none => rfl
  | some t =>
    by_cases h1 : nodeFiberId = fiberId <;>
      by_cases h2 : t.nodeId = rootId <;>
        by_cases h3 : t.fiberId = nodeFiberId <;>
          by_cases h4 : t.fiberId ∈ parentFiberIds <;>
            simp [assertFiberOwnership, ownershipSpecTable, h1, h2, h3, h4]

/-- Closed instance of `C4_ownership_matches_spec_table`: a parent-fiber
trigger is classified identically by code and table. -/
theorem C4_ownership_witness :
    assertFiberOwnership 2 0 [1] 2 (some ⟨5, 1⟩) =
      ownershipSpecTable 2 0 [1] 2 (some ⟨5, 1⟩) :=
  C4_ownership_matches_spec_table 2 0 [1] 2 (some ⟨5, 1⟩)

/-- Claim C5 (counterexample): when the cancellation signal has already fired
(`aborted = true`) and the pending set holds nothing but unresolved promises
(here: empty, so in particular no non-`FINALIZED` non-`PROMISE` node), the
stall check returns without rejecting — the claim says that in this situation
the watchdog rejects with `FIBER_STALL`. -/
theorem C5_stall_counterexample :
    (([] : List SNode).any (fun n => n.flags &&& FINALIZED == 0
        && n.type != some "PROMISE")) = false ∧
      stallWatchdog true [] [] 1 0 = none := by
  constructor
  · rfl
  · rfl

/-- Claim C5 (amended): the stall check returns without rejecting when the
cancellation signal has fired, or when some pending node is non-`FINALIZED`
and not of type `PROMISE`; otherwise it rejects with `FIBER_STALL` at the
last pending node, or — with no pending nodes — at the last fiber-owned
execution target of root, or at root itself. -/
theorem C5_stall_amended (aborted : Bool) (pending rootTargets : List SNode)
    (fiberId rootId : Nat) :
    (aborted = true → stallWatchdog aborted pending rootTargets fiberId rootId = none) ∧
    (aborted = false →
      (∃ n ∈ pending, n.flags &&& FINALIZED = 0 ∧ n.type ≠ some "PROMISE") →
      stallWatchdog aborted pending rootTargets fiberId rootId = none) ∧
    (aborted = false →
      (∀ n ∈ pending, n.flags &&& FINALIZED = 0 → n.type = some "PROMISE") →
      stallWatchdog aborted pending rootTargets fiberId rootId =
        some (lastExecutionTarget pending rootTargets fiberId rootId)) ∧
    (∀ n, pending.getLast? = some n →
      lastExecutionTarget pending rootTargets fiberId rootId = n.id) ∧
    (pending = [] →
      ∀ n, (rootTargets.filter (fun m => m.fiberId == fiberId)).getLast? = some n →
        lastExecutionTarget pending rootTargets fiberId rootId = n.id) ∧
    (pending = [] →
      (rootTargets.filter (fun m => m.fiberId == fiberId)).getLast? = none →
      lastExecutionTarget pending rootTargets fiberId rootId = rootId) := by
  refine ⟨?_, ?_, ?_, ?_, ?_, ?_⟩
  · intro h; simp [stallWatchdog, h]
  · intro h hex
    obtain ⟨n, hn, hfin, hty⟩ := hex
    have : pending.any (fun n => n.flags &&& FINALIZED == 0
        && n.type != some "PROMISE") = true := by
      simp only [List.any_eq_true]
      exact ⟨n, hn, by simp [hfin, hty]⟩
    simp [stallWatchdog, h, this]
  · intro h hall
    have : pending.any (fun n => n.flags &&& FINALIZED == 0
        && n.type != some "PROMISE") = false := by
      simp only [List.any_eq_false]
      intro n hn
      by_cases hf : n.flags &&& FINALIZED = 0
      · simp [hf, hall n hn hf]
      · simp [hf]
    simp [stallWatchdog, h, this]
  · intro n hn
    have hne : pending.length ≠ 0 := by
      intro hlen
      rw [List.length_eq_zero] at hlen
      subst hlen
      simp at hn
    simp [lastExecutionTarget, hne, hn]
  · intro hp n hn
    subst hp
    simp [lastExecutionTarget, fiberExecutionTargets, hn]
  · intro hp hn
    subst hp
    simp [lastExecutionTarget, fiberExecutionTargets, hn]

/-- Closed instance of `C5_stall_amended`: with the signal not fired and a
single unresolved promise pending, the watchdog rejects at that node. -/
theorem C5_stall_amended_witness :
    stallWatchdog false [⟨7, 1, 0, some "PROMISE"⟩] [] 1 0 = some 7 := by
  have h := (C5_stall_amended false [⟨7, 1, 0, some "PROMISE"⟩] [] 1 0).2.2.1
    rfl (by decide)
  have h2 := (C5_stall_amended false [⟨7, 1, 0, some "PROMISE"⟩] [] 1 0).2.2.2.1
    ⟨7, 1, 0, some "PROMISE"⟩ rfl
  rw [h, h2]

/-- Closed instance of `C2_taint_diverges_on_cycle` at fuel 3. -/
theorem C2_taint_diverges_witness :
    taintRun 3 FINALIZED ABORTED gCyc [0] = none :=
  C2_taint_diverges_on_cycle.1 3

/-- Claim C6 (counterexample): node 0 of `gInactive` is inactive, yet the
`before` hook still changes its flags (ORs in `PRE_EXECUTION`) — the claim
says an inactive node's flags stay unchanged. -/
theorem C6_inactive_flags_counterexample :
    (gInactive 0).active = false ∧
      ((hookBefore gInactive (some 0) 0 1).1 0).flags ≠ (gInactive 0).flags := by
  constructor
  · rfl
  · decide

/-- Claim C6 (amended): for every before/after/promiseResolve hook callback,
the node is located by the execution-context chain walk; if no node is found
the store is untouched and no observer fires; if a node is found its flags
are updated unconditionally — even when its `active` flag is clear — all
other nodes are untouched, and the attached observer is notified exactly when
the node is active and an observer is attached. -/
theorem C6_hooks_amended (g : Graph) (execCtx : Option Nat) (asyncId fuel : Nat) :
    (getAsyncResourceNode g fuel execCtx asyncId = none →
      hookBefore g execCtx asyncId fuel = (g, false) ∧
      hookAfter g execCtx asyncId fuel = (g, false) ∧
      hookPromiseResolve g execCtx asyncId fuel = (g, false)) ∧
    (∀ nid, getAsyncResourceNode g fuel execCtx asyncId = some nid →
      (((hookBefore g execCtx asyncId fuel).1 nid).flags =
          (g nid).flags ||| PRE_EXECUTION ∧
        (∀ m, m ≠ nid → (hookBefore g execCtx asyncId fuel).1 m = g m) ∧
        (hookBefore g execCtx asyncId fuel).2 =
          ((g nid).active && (g nid).notifyObserver.isSome)) ∧
      (((hookAfter g execCtx asyncId fuel).1 nid).flags =
          (g nid).flags ||| POST_EXECUTION ∧
        (∀ m, m ≠ nid → (hookAfter g execCtx asyncId fuel).1 m = g m) ∧
        (hookAfter g execCtx asyncId fuel).2 =
          ((g nid).active && (g nid).notifyObserver.isSome)) ∧
      (((hookPromiseResolve g execCtx asyncId fuel).1 nid).flags =
          (g nid).flags ||| RESOLVED ∧
        (∀ m, m ≠ nid → (hookPromiseResolve g execCtx asyncId fuel).1 m = g m) ∧
        (hookPromiseResolve g execCtx asyncId fuel).2 =
          ((g nid).active && (g nid).notifyObserver.isSome))) := by
  constructor
  · intro h
    refine ⟨?_, ?_, ?_⟩ <;> simp [hookBefore, hookAfter, hookPromiseResolve, h]
  · intro nid h
    refine ⟨⟨?_, ?_, ?_⟩, ⟨?_, ?_, ?_⟩, ⟨?_, ?_, ?_⟩⟩ <;>
      simp [hookBefore, hookAfter, hookPromiseResolve, h, nodeOnBefore,
        nodeOnAfter, nodeOnPromiseResolve, updNode] <;>
      intro m hm <;> simp [hm]

/-- Closed instance of `C6_hooks_amended`: the inactive node's flags are
updated by the `before` hook, and no observer is notified. -/
theorem C6_hooks_amended_witness :
    ((hookBefore gInactive (some 0) 0 1).1 0).flags =
      (gInactive 0).flags ||| PRE_EXECUTION ∧
      (hookBefore gInactive (some 0) 0 1).2 =
        ((gInactive 0).active && (gInactive 0).notifyObserver.isSome) := by
  have h := (C6_hooks_amended gInactive (some 0) 0 1).2 0 (by rfl)
  exact ⟨h.1.1, h.1.2.2⟩

theorem foldl_settleOnce_settled {ε α : Type} (s : Settled ε α)
    (evs : List (SettleEvent ε α)) :
    evs.foldl settleOnce (some s) = some s := by
  induction evs with
  | nil => rfl
  | cons a l ih => simpa [settleOnce] using ih

/-- Claim C7: the watchdog-wrapped result promise settles exactly once — once
the watchdog rejects it with a fault, any later settlement attempts (further
faults, or the user promise settling either way) are silently swallowed and
the first fault remains the observed outcome. -/
theorem C7_first_fault_wins {ε α : Type} (e : ε)
    (evs : List (SettleEvent ε α)) :
    runSettle (SettleEvent.rejectCall e :: evs) = some (Settled.rejected e) := by
  show (SettleEvent.rejectCall e :: evs).foldl settleOnce none = _
  rw [List.foldl_cons]
  exact foldl_settleOnce_settled (Settled.rejected e) evs

/-- Closed instance of `C7_first_fault_wins`: a rejection followed by a user
fulfilment and a second fault still observes the first fault. -/
theorem C7_first_fault_wins_witness :
    runSettle (SettleEvent.rejectCall 5 ::
        [SettleEvent.sourceResolved 1, SettleEvent.rejectCall 9]) =
      some (Settled.rejected (5 : Nat)) :=
  C7_first_fault_wins (α := Nat) 5 [SettleEvent.sourceResolved 1, SettleEvent.rejectCall 9]

theorem jsIndexOfAux_mem (x : Nat) (l : List Nat) (h : x ∈ l) :
    ∃ i, jsIndexOfAux x l = some i ∧ l.eraseIdx i = l.erase x := by
  induction l with
  | nil => cases h
  | cons a t ih =>
    by_cases hax : a = x
    · subst hax
      exact ⟨0, by simp [jsIndexOfAux], by simp [List.erase_cons_head]⟩
    · have hxt : x ∈ t := by
        rcases List.mem_cons.mp h with h' | h'
        · exact absurd h'.symm hax
        · exact h'
      obtain ⟨i, hi, he⟩ := ih hxt
      refine ⟨i + 1, ?_, ?_⟩
      · simp [jsIndexOfAux, hax, hi]
      · simp [List.eraseIdx_cons_succ, he, List.erase_cons_tail, hax]

theorem jsIndexOfAux_not_mem (x : Nat) (l : List Nat) (h : x ∉ l) :
    jsIndexOfAux x l = none := by
  induction l with
  | nil => rfl
  | cons a t ih =>
    have ha : ¬ a = x := fun he => h (he ▸ List.mem_cons_self a t)
    simp [jsIndexOfAux, ha, ih (fun hx => h (List.mem_cons_of_mem a hx))]

theorem jsSplice_indexOf_erase (x : Nat) (l : List Nat) (h : x ∈ l) :
    jsSpliceRemoveOne l (jsIndexOf l x) = l.erase x := by
  obtain ⟨i, hi, he⟩ := jsIndexOfAux_mem x l h
  simp only [jsSpliceRemoveOne, jsIndexOf, hi]
  have hneg : ¬ ((i : Int) < 0) := by omega
  simp only [hneg, if_false, Int.toNat_natCast]
  exact he

theorem hookDisarm_iff (l : List Nat) :
    (if l.isEmpty then false else true) = false ↔ l = [] := by
  cases l <;> simp

theorem jsSplice_neg_one (l : List Nat) (h : l ≠ []) :
    jsSpliceRemoveOne l (-1) = l.dropLast := by
  have hlen : 1 ≤ l.length := List.length_pos.mpr h
  have ht : (((l.length : Int)) + (-1)).toNat = l.length - 1 := by omega
  have hneg : ((-1 : Int) < 0) := by omega
  simp only [jsSpliceRemoveOne, hneg, if_true, ht]
  exact (List.dropLast_eq_eraseIdx (by omega)).symm

/-- Claim C8: for a fiber on the stack, `disable()` removes that fiber itself
from the stack (first occurrence, at any position), disarms the hook exactly
when the stack becomes empty, and re-stamps the fiber's root node with the
fiberId of the topmost remaining active fiber, or 0 when none remains. -/
theorem C8_disable_removes_disarms_restamps (s : SysState) (fid : Nat)
    (hmem : fid ∈ s.stack) (hnodup : s.stack.Nodup) (harmed : s.hookArmed = true) :
    (disable s fid).stack = s.stack.erase fid ∧
    fid ∉ (disable s fid).stack ∧
    ((disable s fid).hookArmed = false ↔ s.stack.erase fid = []) ∧
    ((disable s fid).nodes ((s.fibers fid).rootId)).fiberId =
      (((s.stack.erase fid).reverse.find?
        (fun j => (s.fibers j).active)).getD 0) := by
  have hsp : jsSpliceRemoveOne s.stack (jsIndexOf s.stack fid) = s.stack.erase fid :=
    jsSplice_indexOf_erase fid s.stack hmem
  refine ⟨?_, ?_, ?_, ?_⟩
  · show jsSpliceRemoveOne s.stack (jsIndexOf s.stack fid) = _
    exact hsp
  · show fid ∉ jsSpliceRemoveOne s.stack (jsIndexOf s.stack fid)
    rw [hsp]
    exact hnodup.not_mem_erase
  · show (if (jsSpliceRemoveOne s.stack (jsIndexOf s.stack fid)).isEmpty
        then false else s.hookArmed) = false ↔ _
    rw [hsp, harmed]
    exact hookDisarm_iff _
  · simp [disable, updNode, getFiberTop, hsp]

/-- Closed instance of `C8_disable_removes_disarms_restamps` on `sysEx`,
disabling the middle fiber 2 of the stack `[1, 2, 3]`. -/
theorem C8_disable_witness :
    (disable sysEx 2).stack = sysEx.stack.erase 2 ∧
    2 ∉ (disable sysEx 2).stack ∧
    ((disable sysEx 2).hookArmed = false ↔ sysEx.stack.erase 2 = []) ∧
    ((disable sysEx 2).nodes ((sysEx.fibers 2).rootId)).fiberId =
      (((sysEx.stack.erase 2).reverse.find?
        (fun j => (sysEx.fibers j).active)).getD 0) :=
  C8_disable_removes_disarms_restamps sysEx 2 (by decide) (by decide) rfl

/-- Claim C9: calling `disable()` on a fiber that is not on the (non-empty)
fiber stack still mutates the stack: `indexOf` yields `-1`, and
`splice(-1, 1)` removes the stack's last entry. -/
theorem C9_disable_absent_removes_last (s : SysState) (fid : Nat)
    (h1 : fid ∉ s.stack) (h2 : s.stack ≠ []) :
    (disable s fid).stack = s.stack.dropLast ∧
      (disable s fid).stack ≠ s.stack := by
  have hidx : jsIndexOf s.stack fid = -1 := by
    simp [jsIndexOf, jsIndexOfAux_not_mem fid s.stack h1]
  have hsp : (disable s fid).stack = s.stack.dropLast := by
    show jsSpliceRemoveOne s.stack (jsIndexOf s.stack fid) = _
    rw [hidx]
    exact jsSplice_neg_one s.stack h2
  refine ⟨hsp, ?_⟩
  rw [hsp]
  intro he
  have hlen := congrArg List.length he
  have hpos : 0 < s.stack.length := List.length_pos.mpr h2
  rw [List.length_dropLast] at hlen
  omega

/-- Closed instance of `C9_disable_absent_removes_last` on `sysEx`: disabling
the absent fiber 5 removes fiber 3 (the top of the stack). -/
theorem C9_disable_witness :
    (disable sysEx 5).stack = sysEx.stack.dropLast ∧
      (disable sysEx 5).stack ≠ sysEx.stack :=
  C9_disable_absent_removes_last sysEx 5 (by decide) (by decide)

theorem jsIndexOfAux_append_fresh (x : Nat) (l : List Nat)
    (h : ∀ f ∈ l, f ≠ x) : jsIndexOfAux x (l ++ [x]) = some l.length := by
  induction l with
  | nil => simp [jsIndexOfAux]
  | cons a t ih =>
    have ha : ¬ (a = x) := h a (List.mem_cons_self a t)
    simp [jsIndexOfAux, ha, ih (fun f hf => h f (List.mem_cons_of_mem a hf))]

theorem eraseIdx_append_self {α : Type} (l : List α) (x : α) :
    (l ++ [x]).eraseIdx l.length = l := by
  simp [List.eraseIdx_append_of_length_le]

theorem find?_congr_pred {α : Type} (l : List α) (p q : α → Bool)
    (h : ∀ a ∈ l, p a = q a) : l.find? p = l.find? q := by
  induction l with
  | nil => rfl
  | cons a t ih =>
    have ha := h a (List.mem_cons_self a t)
    by_cases hq : q a = true
    · rw [List.find?_cons_of_pos _ (ha.trans hq), List.find?_cons_of_pos _ hq]
    · have hp : ¬ p a = true := by rw [ha]; exact hq
      rw [List.find?_cons_of_neg _ hp, List.find?_cons_of_neg _ hq]
      exact ih fun b hb => h b (List.mem_cons_of_mem a hb)

theorem newFiber_stack (s : SysState) (e : Nat) :
    (newFiber s e).1.stack = s.stack := by
  cases hc : s.currentExec <;> simp [newFiber, hc]

theorem newFiber_fid (s : SysState) (e : Nat) :
    (newFiber s e).2 = s.nextFiberId := by
  cases hc : s.currentExec <;> simp [newFiber, hc]

theorem newFiber_fibers_ne (s : SysState) (e : Nat) (j : Nat)
    (h : j ≠ s.nextFiberId) : (newFiber s e).1.fibers j = s.fibers j := by
  cases hc : s.currentExec <;> simp [newFiber, hc, updFiber, h]

theorem newFiber_fibers_self (s : SysState) (e : Nat) :
    ((newFiber s e).1.fibers s.nextFiberId).active = false := by
  cases hc : s.currentExec <;> simp [newFiber, hc, updFiber]

theorem enable_stack_inactive (s : SysState) (fid : Nat)
    (h : (s.fibers fid).active = false) :
    (enable s fid).stack = s.stack ++ [fid] := by
  simp [enable, h]

theorem enable_fibers_ne (s : SysState) (fid j : Nat) (h : j ≠ fid) :
    (enable s fid).fibers j = s.fibers j := by
  by_cases ha : (s.fibers fid).active <;> simp [enable, ha, updFiber, h]

theorem disable_fibers_ne (s : SysState) (fid j : Nat) (h : j ≠ fid) :
    (disable s fid).fibers j = s.fibers j := by
  simp [disable, updFiber, h]

theorem disable_fibers_self (s : SysState) (fid : Nat) :
    ((disable s fid).fibers fid).active = false := by
  simp [disable, updFiber]

/-- Claim C10: when `fn` throws synchronously inside `fiber(fn, params)`, the
`finally` block deactivates the freshly created fiber before the exception
reaches the caller, so the fiber stack and `getFiber()` are restored to their
pre-call values (given the invariant that every stacked fiber id predates the
`_fiberIdx` counter). -/
theorem C10_fiber_throw_restores (s : SysState) (e : Nat)
    (hfresh : ∀ f ∈ s.stack, f < s.nextFiberId) :
    (fiberCallThrow s e).stack = s.stack ∧
    getFiberTop (fiberCallThrow s e) = getFiberTop s ∧
    ((fiberCallThrow s e).fibers s.nextFiberId).active = false := by
  have hfid : (newFiber s e).2 = s.nextFiberId := newFiber_fid s e
  have hact : ((newFiber s e).1.fibers (newFiber s e).2).active = false := by
    rw [hfid]; exact newFiber_fibers_self s e
  have hstk2 : (enable (newFiber s e).1 (newFiber s e).2).stack =
      s.stack ++ [s.nextFiberId] := by
    rw [enable_stack_inactive _ _ hact, newFiber_stack, hfid]
  have hidx : jsIndexOf (s.stack ++ [s.nextFiberId]) s.nextFiberId =
      (s.stack.length : Int) := by
    simp [jsIndexOf,
      jsIndexOfAux_append_fresh _ _ (fun f hf => Nat.ne_of_lt (hfresh f hf))]
  have hstk3 : (fiberCallThrow s e).stack = s.stack := by
    show jsSpliceRemoveOne (enable (newFiber s e).1 (newFiber s e).2).stack
      (jsIndexOf (enable (newFiber s e).1 (newFiber s e).2).stack
        (newFiber s e).2) = s.stack
    rw [hstk2, hfid, hidx]
    have hneg : ¬ ((s.stack.length : Int) < 0) := by omega
    simp only [jsSpliceRemoveOne, hneg, if_false, Int.toNat_natCast]
    exact eraseIdx_append_self s.stack s.nextFiberId
  have hfib3 : ∀ j, j ≠ s.nextFiberId →
      (fiberCallThrow s e).fibers j = s.fibers j := by
    intro j hj
    have hj' : j ≠ (newFiber s e).2 := by rw [hfid]; exact hj
    show (disable (enable (newFiber s e).1 (newFiber s e).2)
      (newFiber s e).2).fibers j = _
    rw [disable_fibers_ne _ _ _ hj', enable_fibers_ne _ _ _ hj',
      newFiber_fibers_ne s e j hj]
  refine ⟨hstk3, ?_, ?_⟩
  · show (fiberCallThrow s e).stack.reverse.find?
      (fun fid => ((fiberCallThrow s e).fibers fid).active) = _
    rw [hstk3]
    apply find?_congr_pred
    intro a ha
    rw [hfib3 a (Nat.ne_of_lt (hfresh a (List.mem_reverse.mp ha)))]
  · show ((disable (enable (newFiber s e).1 (newFiber s e).2)
      (newFiber s e).2).fibers s.nextFiberId).active = false
    rw [← hfid]
    exact disable_fibers_self _ _

/-- Closed instance of `C10_fiber_throw_restores` on `sysEx`. -/
theorem C10_fiber_throw_witness :
    (fiberCallThrow sysEx 40).stack = sysEx.stack ∧
    getFiberTop (fiberCallThrow sysEx 40) = getFiberTop sysEx ∧
    ((fiberCallThrow sysEx 40).fibers sysEx.nextFiberId).active = false :=
  C10_fiber_throw_restores sysEx 40 (by decide)

theorem updNode_fiberId_same (g : Graph) (i : Nat) (n : AsyncResourceNode)
    (nid : Nat) (h : n.fiberId = (g i).fiberId) :
    ((updNode g i n) nid).fiberId = (g nid).fiberId := by
  by_cases hni : nid = i
  · subst hni; simp [updNode, h]
  · simp [updNode, hni]

theorem taintRun_preserves_fiberId (fuel : Nat) :
    ∀ (mask fl : Nat) (g : Graph) (l : List Nat) (g' : Graph),
      taintRun fuel mask fl g l = some g' →
      ∀ nid, (g' nid).fiberId = (g nid).fiberId := by
  induction fuel with
  | zero =>
    intro mask fl g l g' h nid
    cases l with
    | nil =>
      simp only [taintRun, Option.some.injEq] at h
      rw [← h]
    | cons a t => simp [taintRun] at h
  | succ fuel ih =>
    intro mask fl g l g' h nid
    cases l with
    | nil =>
      simp only [taintRun, Option.some.injEq] at h
      rw [← h]
    | cons a t =>
      simp only [taintRun] at h
      by_cases hg : ((g a).flags &&& mask &&& fl == 0) = true
      · rw [if_pos hg] at h
        have h2 := ih mask fl _ _ _ h nid
        rw [h2]
        refine updNode_fiberId_same g a _ nid ?_
        rfl
      · rw [if_neg hg] at h
        exact ih mask fl _ _ _ h nid

theorem nodeOnBefore_fiberId (g : Graph) (x nid : Nat) :
    ((nodeOnBefore g x).1 nid).fiberId = (g nid).fiberId := by
  refine updNode_fiberId_same g x _ nid ?_
  rfl

theorem nodeOnAfter_fiberId (g : Graph) (x nid : Nat) :
    ((nodeOnAfter g x).1 nid).fiberId = (g nid).fiberId := by
  refine updNode_fiberId_same g x _ nid ?_
  rfl

theorem nodeOnPromiseResolve_fiberId (g : Graph) (x nid : Nat) :
    ((nodeOnPromiseResolve g x).1 nid).fiberId = (g nid).fiberId := by
  refine updNode_fiberId_same g x _ nid ?_
  rfl

theorem hookBefore_fiberId (g : Graph) (c : Option Nat) (a f nid : Nat) :
    ((hookBefore g c a f).1 nid).fiberId = (g nid).fiberId := by
  cases hr : getAsyncResourceNode g f c a with
  | none => simp [hookBefore, hr]
  | some x => simp [hookBefore, hr, nodeOnBefore_fiberId]

theorem hookAfter_fiberId (g : Graph) (c : Option Nat) (a f nid : Nat) :
    ((hookAfter g c a f).1 nid).fiberId = (g nid).fiberId := by
  cases hr : getAsyncResourceNode g f c a with
  | none => simp [hookAfter, hr]
  | some x => simp [hookAfter, hr, nodeOnAfter_fiberId]

theorem hookPromiseResolve_fiberId (g : Graph) (c : Option Nat) (a f nid : Nat) :
    ((hookPromiseResolve g c a f).1 nid).fiberId = (g nid).fiberId := by
  cases hr : getAsyncResourceNode g f c a with
  | none => simp [hookPromiseResolve, hr]
  | some x => simp [hookPromiseResolve, hr, nodeOnPromiseResolve_fiberId]

theorem onExecuteInsert_fiberId (g : Graph) (selfId asyncId : Nat)
    (ty : Option String) (nid : Nat) (h : nid ≠ asyncId) :
    ((onExecuteInsert g selfId asyncId ty) nid).fiberId = (g nid).fiberId := by
  unfold onExecuteInsert
  refine (updNode_fiberId_same _ selfId _ nid ?_).trans ?_
  · rfl
  · simp [updNode, h]

theorem onExecuteWireTrigger_fiberId (g : Graph) (asyncId : Nat)
    (tr : Option Nat) (nid : Nat) :
    ((onExecuteWireTrigger g asyncId tr) nid).fiberId = (g nid).fiberId := by
  cases tr with
  | none => rfl
  | some tid =>
    unfold onExecuteWireTrigger
    refine (updNode_fiberId_same _ tid _ nid ?_).trans ?_
    · rfl
    · refine updNode_fiberId_same g asyncId _ nid ?_
      rfl

theorem onExecuteNotify_fiberId (g : Graph) (selfId asyncId nid : Nat) :
    ((onExecuteNotify g selfId asyncId) nid).fiberId = (g nid).fiberId := by
  cases h : (g selfId).notifyObserver with
  | none => simp [onExecuteNotify, h]
  | some obs =>
    by_cases hb : ((g asyncId).fiberId == obs) = true <;>
      simp [onExecuteNotify, h, hb, updNode_fiberId_same]

theorem enable_nodes_ne (s : SysState) (fid nid : Nat)
    (h : nid ≠ (s.fibers fid).rootId) :
    ((enable s fid).nodes nid).fiberId = (s.nodes nid).fiberId := by
  by_cases ha : (s.fibers fid).active <;> simp [enable, ha, updNode, h]

theorem disable_nodes_ne (s : SysState) (fid nid : Nat)
    (h : nid ≠ (s.fibers fid).rootId) :
    ((disable s fid).nodes nid).fiberId = (s.nodes nid).fiberId := by
  simp [disable, updNode, h]

theorem enable_root_restamp (s : SysState) (fid : Nat)
    (h : (s.fibers fid).active = false) :
    ((enable s fid).nodes ((s.fibers fid).rootId)).fiberId = fid := by
  simp [enable, h, updNode]

theorem disable_root_restamp (s : SysState) (fid : Nat) :
    ((disable s fid).nodes ((s.fibers fid).rootId)).fiberId =
      ((jsSpliceRemoveOne s.stack (jsIndexOf s.stack fid)).reverse.find?
        (fun j => (s.fibers j).active)).getD 0 := by
  simp [disable, updNode, getFiberTop]

/-- Claim C3 (counterexample): in `sysRoot`, node 0 — an existing node with
`fiberId = 1` — is the root of the inactive fiber 2; `Fiber.enable` assigns
`root.fiberId = this.fiberId`, changing the existing node's `fiberId` from 1
to 2, so `fiberId` is not constant after construction. -/
theorem C3_enable_changes_root_fiberId :
    (sysRoot.nodes 0).fiberId = 1 ∧
      ((enable sysRoot 2).nodes 0).fiberId = 2 := by
  constructor
  · decide
  · decide

/-- Claim C3 (amended): a node's `fiberId` is reassigned only by
`Fiber.enable` and `Fiber.disable`, and only for that fiber's root node: the
before/after/promiseResolve hooks, taint propagation, and `_onExecute`
(for every pre-existing node) all preserve every node's `fiberId`; `enable`
and `disable` preserve the `fiberId` of every node other than the fiber's
root, `enable` of an inactive fiber stamps the fiber's own id on its root,
and `disable` resets its root's `fiberId` to the id of the topmost fiber
remaining on the spliced stack whose active flag is set, or 0 when none
remains. -/
theorem C3_fiberId_changed_only_by_enable_disable :
    (∀ (g : Graph) (c : Option Nat) (a f nid : Nat),
      ((hookBefore g c a f).1 nid).fiberId = (g nid).fiberId ∧
      ((hookAfter g c a f).1 nid).fiberId = (g nid).fiberId ∧
      ((hookPromiseResolve g c a f).1 nid).fiberId = (g nid).fiberId) ∧
    (∀ (fuel mask fl : Nat) (g : Graph) (l : List Nat) (g' : Graph),
      taintRun fuel mask fl g l = some g' →
      ∀ nid, (g' nid).fiberId = (g nid).fiberId) ∧
    (∀ (g : Graph) (fuel selfId asyncId : Nat) (ty : Option String)
        (trig nid : Nat), nid ≠ asyncId →
      ((nodeOnExecute g fuel selfId asyncId ty trig) nid).fiberId =
        (g nid).fiberId) ∧
    (∀ (s : SysState) (fid nid : Nat), nid ≠ (s.fibers fid).rootId →
      ((enable s fid).nodes nid).fiberId = (s.nodes nid).fiberId) ∧
    (∀ (s : SysState) (fid nid : Nat), nid ≠ (s.fibers fid).rootId →
      ((disable s fid).nodes nid).fiberId = (s.nodes nid).fiberId) ∧
    (∀ (s : SysState) (fid : Nat), (s.fibers fid).active = false →
      ((enable s fid).nodes ((s.fibers fid).rootId)).fiberId = fid) ∧
    (∀ (s : SysState) (fid : Nat),
      ((disable s fid).nodes ((s.fibers fid).rootId)).fiberId =
        ((jsSpliceRemoveOne s.stack (jsIndexOf s.stack fid)).reverse.find?
          (fun j => (s.fibers j).active)).getD 0) := by
  refine ⟨?_, taintRun_preserves_fiberId, ?_, enable_nodes_ne,
    disable_nodes_ne, enable_root_restamp, disable_root_restamp⟩
  · intro g c a f nid
    exact ⟨hookBefore_fiberId g c a f nid, hookAfter_fiberId g c a f nid,
      hookPromiseResolve_fiberId g c a f nid⟩
  · intro g fuel selfId asyncId ty trig nid h
    unfold nodeOnExecute
    split
    · rfl
    · rw [onExecuteNotify_fiberId, onExecuteWireTrigger_fiberId,
        onExecuteInsert_fiberId g selfId asyncId ty nid h]

/-- Closed instance of `C3_fiberId_changed_only_by_enable_disable`: enabling
the inactive fiber 2 of `sysRoot` stamps 2 on its root node, and disabling
fiber 2 of `sysEx` resets its root to the topmost remaining active fiber's
id. -/
theorem C3_amended_witness :
    ((enable sysRoot 2).nodes ((sysRoot.fibers 2).rootId)).fiberId = 2 ∧
    ((disable sysEx 2).nodes ((sysEx.fibers 2).rootId)).fiberId =
      ((jsSpliceRemoveOne sysEx.stack (jsIndexOf sysEx.stack 2)).reverse.find?
        (fun j => (sysEx.fibers j).active)).getD 0 :=
  ⟨C3_fiberId_changed_only_by_enable_disable.2.2.2.2.2.1 sysRoot 2 (by decide),
   C3_fiberId_changed_only_by_enable_disable.2.2.2.2.2.2 sysEx 2⟩

end FiberDev
